import Mathlib

/-!
Verification of the SlackCheers celebration dispatch core.

This file shallowly embeds the Go source of the repository:
dates are `Int` triples (Go `time.Time` at day granularity, UTC midnight),
instants are `Int` seconds since the Unix epoch, machine strings are Lean
`String`s, and fallible calls return `Except String`.  Every definition is
translated from the corresponding Go function (file and symbol named in its
doc comment).
-/

namespace SlackCheers

/-- Go `isLeap` rule used by `time` (proleptic Gregorian). -/
def isLeap (y : Int) : Bool := y % 4 = 0 && (y % 100 ≠ 0 || y % 400 = 0)

/-- Length of a month in the given year, as in Go's `time` package
(`daysIn`).  Only consulted for `m ∈ [1,12]`. -/
def daysInMonth (y m : Int) : Int :=
  if m = 2 then (if isLeap y then 29 else 28)
  else if m = 4 ∨ m = 6 ∨ m = 9 ∨ m = 11 then 30
  else 31

/-- Cumulative days before month `m` in a non-leap year (Go `daysBefore`
table). -/
def daysBefore (m : Int) : Int :=
  if m ≤ 1 then 0 else if m = 2 then 31 else if m = 3 then 59
  else if m = 4 then 90 else if m = 5 then 120 else if m = 6 then 151
  else if m = 7 then 181 else if m = 8 then 212 else if m = 9 then 243
  else if m = 10 then 273 else if m = 11 then 304 else 334

/-- A Go `time.Time` at day granularity (midnight UTC): the civil
(year, month, day) triple. -/
structure GoDate where
  year : Int
  month : Int
  day : Int
deriving DecidableEq, Repr

/-- Absolute day number of a civil date (days since 0001-01-01 in the
proleptic Gregorian calendar).  Monotone image of Go's internal absolute
time, so it mirrors `time.Time.Before` on day-granularity values.  The
formula is linear in `day`, so it is also meaningful for a not yet
normalized day component. -/
def toDays (dt : GoDate) : Int :=
  365 * (dt.year - 1) + (dt.year - 1) / 4 - (dt.year - 1) / 100 + (dt.year - 1) / 400
    + daysBefore dt.month + (if 3 ≤ dt.month ∧ isLeap dt.year then 1 else 0) + dt.day - 1

/-- Day-component normalization by carrying/borrowing whole months, the
effect of Go `time.Date` once the month is in `[1,12]`.  Go computes the
same date through an absolute day count; carrying month lengths one at a
time is arithmetically the same.  The fuel bounds the number of carried
months; every call site in this file has `1 ≤ d ≤ 31`, needing at most one
step. -/
def normDays : Nat → Int → Int → Int → GoDate
  | 0, y, m, d => ⟨y, m, d⟩
  | fuel+1, y, m, d =>
    if d < 1 then
      (if m = 1 then normDays fuel (y - 1) 12 (d + daysInMonth (y - 1) 12)
       else normDays fuel y (m - 1) (d + daysInMonth y (m - 1)))
    else if d > daysInMonth y m then
      (if m = 12 then normDays fuel (y + 1) 1 (d - 31)
       else normDays fuel y (m + 1) (d - daysInMonth y m))
    else ⟨y, m, d⟩

/-- Go `time.Date(y, m, d, 0, 0, 0, 0, time.UTC)` at day granularity:
normalizes the month into `[1,12]` (floor division, as Go's `norm` does)
and then the day by month carries. -/
def goDate (y m d : Int) : GoDate :=
  normDays 1000 (y + (m - 1) / 12) ((m - 1) % 12 + 1) d

/-- A structurally valid civil date (what Go produces after
normalization). -/
def ValidDate (dt : GoDate) : Prop :=
  1 ≤ dt.month ∧ dt.month ≤ 12 ∧ 1 ≤ dt.day ∧ dt.day ≤ daysInMonth dt.year dt.month

instance (dt : GoDate) : Decidable (ValidDate dt) := by
  unfold ValidDate; infer_instance

/-- Go `candidate.Before(from)` for day-granularity UTC times: comparison
of absolute time, i.e. of absolute day numbers. -/
def dateBefore (a b : GoDate) : Bool := toDays a < toDays b

/-- `nextOccurrence` from `internal/service/dashboard_service.go` (and the
identical copy in `slack_channels_service.go`):
`candidate := time.Date(from.Year(), month, day, ...); if candidate.Before(from) { candidate = candidate.AddDate(1, 0, 0) }`.
`AddDate(1,0,0)` is `time.Date(y+1, m, d, ...)` on the candidate's own
components. -/
def nextOccurrence (fromD : GoDate) (month day : Int) : GoDate :=
  let candidate := goDate fromD.year month day
  if dateBefore candidate fromD then
    goDate (candidate.year + 1) candidate.month candidate.day
  else candidate

/-- Civil date from an absolute day number counted from 1970-01-01
(standard era decomposition; agrees with Go's `absDate`).  Used to read
`Year()/Month()/Day()` off an instant in the dispatch model. -/
def civilFromDays (z : Int) : Int × Int × Int :=
  let z := z + 719468
  let era := z / 146097
  let doe := z - era * 146097
  let yoe := (doe - doe / 1460 + doe / 36524 - doe / 146096) / 365
  let y := yoe + era * 400
  let doy := doe - (365 * yoe + yoe / 4 - yoe / 100)
  let mp := (5 * doy + 2) / 153
  let d := doy - (153 * mp + 2) / 5 + 1
  let m := mp + (if mp < 10 then 3 else -9)
  (y + (if m ≤ 2 then 1 else 0), m, d)

/-! ## Date parser (internal/service/slack_inbound_service.go)

The two grammars are regular expressions in the source.  They are embedded
here as executable character-level matchers with Go's (Perl-style,
leftmost-first) match and capture semantics, worked out pattern by
pattern in the comments below. -/

/-- RE2 `\s` character class: `[\t\n\f\r ]`. -/
def isReSpace (c : Char) : Bool :=
  c = ' ' || c = '\t' || c = '\n' || c = '\x0c' || c = '\r'

/-- ASCII whitespace recognized by Go `unicode.IsSpace` (the non-ASCII
Unicode space code points are not modeled; no claim depends on them). -/
def isGoSpace (c : Char) : Bool :=
  c = ' ' || c = '\t' || c = '\n' || c = '\x0b' || c = '\x0c' || c = '\r'

/-- ASCII letter, i.e. `(?i)[a-z]`. -/
def isAsciiLetter (c : Char) : Bool :=
  ('a' ≤ c && c ≤ 'z') || ('A' ≤ c && c ≤ 'Z')

/-- ASCII digit, i.e. `\d`. -/
def isDigitC (c : Char) : Bool := '0' ≤ c && c ≤ '9'

/-- RE2 `\w` word character (ASCII), used for `\b` boundaries. -/
def isWordChar (c : Char) : Bool := isAsciiLetter c || isDigitC c || c = '_'

/-- The separator class `[/.-]` of the legacy date patterns. -/
def matchSep (c : Char) : Bool := c = '/' || c = '.' || c = '-'

/-- The punctuation class `[:=-]` following the legacy keywords. -/
def matchPunct (c : Char) : Bool := c = ':' || c = '=' || c = '-'

/-- Go `strings.TrimSpace` on a character list. -/
def goTrimSpaceL (cs : List Char) : List Char :=
  ((cs.dropWhile isGoSpace).reverse.dropWhile isGoSpace).reverse

/-- Go `strings.TrimSpace`. -/
def goTrimSpace (s : String) : String := ⟨goTrimSpaceL s.data⟩

/-- ASCII lowercasing, the relevant fragment of Go `strings.ToLower`. -/
def toLowerC (c : Char) : Char :=
  if 'A' ≤ c && c ≤ 'Z' then Char.ofNat (c.toNat + 32) else c

/-- Case-insensitive literal match of `kw` (given lowercase) at the head
of `cs`. -/
def startsWithCI : List Char → List Char → Bool
  | [], _ => true
  | _ :: _, [] => false
  | k :: ks, c :: cs => toLowerC c = k && startsWithCI ks cs

/-- Go `strconv.Atoi` on an all-digit string (the only way the source
calls it). -/
def digitsToInt (ds : List Char) : Int :=
  ds.foldl (fun acc c => acc * 10 + ((c.toNat : Int) - 48)) 0

/-- Tail `(?:\s*,\s*(\d{4}))?\s*$` of `namedDatePattern`.  The optional
year group must be taken exactly when a comma follows (both alternatives
fail otherwise, since `,` is not whitespace), and `\d{4}` is exactly four
digits followed by trailing whitespace. -/
def namedDateTail (cs : List Char) (word ds : List Char) :
    Option (List Char × List Char × Option (List Char)) :=
  match cs.dropWhile isReSpace with
  | ',' :: rest =>
    let rest := rest.dropWhile isReSpace
    let ys := rest.takeWhile isDigitC
    if ys.length = 4 && ((rest.drop 4).dropWhile isReSpace).isEmpty then
      some (word, ds, some ys)
    else none
  | [] => some (word, ds, none)
  | _ => none

/-- `namedDatePattern = (?i)^/?\s*([a-z]+)\s+([0-3]?\d)(?:\s*,\s*(\d{4}))?\s*$`.
Returns the three capture groups.  The day group `[0-3]?\d` can absorb one
or two digits; since everything that may follow it rejects a digit, a
two-digit day stands exactly when two digits are present with the first in
`0-3`, and any other digit run fails the whole pattern (Go regexp explores
the greedy alternative first and backtracks, which is what the case split
implements). -/
def namedDateMatch (cs : List Char) :
    Option (List Char × List Char × Option (List Char)) :=
  let cs := match cs with | '/' :: rest => rest | _ => cs
  let cs := cs.dropWhile isReSpace
  let word := cs.takeWhile isAsciiLetter
  let cs := cs.dropWhile isAsciiLetter
  if word.isEmpty then none
  else
    let sp := cs.takeWhile isReSpace
    let cs := cs.dropWhile isReSpace
    if sp.isEmpty then none
    else
      match cs.takeWhile isDigitC with
      | [d1] => namedDateTail (cs.drop 1) word [d1]
      | [d1, d2] => if d1 ≤ '3' then namedDateTail (cs.drop 2) word [d1, d2] else none
      | _ => none

/-- The `monthNames` lookup table. -/
def monthNames (s : String) : Option Int :=
  if s = "jan" ∨ s = "january" then some 1
  else if s = "feb" ∨ s = "february" then some 2
  else if s = "mar" ∨ s = "march" then some 3
  else if s = "apr" ∨ s = "april" then some 4
  else if s = "may" then some 5
  else if s = "jun" ∨ s = "june" then some 6
  else if s = "jul" ∨ s = "july" then some 7
  else if s = "aug" ∨ s = "august" then some 8
  else if s = "sep" ∨ s = "sept" ∨ s = "september" then some 9
  else if s = "oct" ∨ s = "october" then some 10
  else if s = "nov" ∨ s = "november" then some 11
  else if s = "dec" ∨ s = "december" then some 12
  else none

/-- `validDayMonth` from `slack_inbound_service.go`: project (day, month)
onto the fixed reference year 2024 with `time.Date` and check that nothing
normalized away. -/
def validDayMonth (day month : Int) : Bool :=
  let refYear : Int := 2024
  let t := goDate refYear month day
  t.month = month && t.day = day

/-- Result of `parseNamedDateLine`: the Go function returns
`(month, day, year, matched, err)`. -/
inductive LineResult where
  | noMatch
  | fail (msg : String)
  | ok (month day : Int) (year : Option Int)
deriving DecidableEq, Repr

/-- `parseNamedDateLine`.  The captured month word is all ASCII letters,
so the source's `TrimSpace` and `TrimSuffix "."` on it are no-ops after
lowercasing. -/
def parseNamedDateLine (line : String) : LineResult :=
  match namedDateMatch (goTrimSpace line).data with
  | none => .noMatch
  | some (word, ds, ys) =>
    match monthNames ⟨word.map toLowerC⟩ with
    | none => .fail "invalid month name"
    | some parsedMonth =>
      let parsedDay := digitsToInt ds
      if parsedDay < 1 ∨ parsedDay > 31 then .fail "invalid day value"
      else if !validDayMonth parsedDay parsedMonth then .fail "invalid calendar date"
      else
        match ys with
        | none => .ok parsedMonth parsedDay none
        | some ysd =>
          let yearValue := digitsToInt ysd
          if yearValue < 1900 ∨ yearValue > 3000 then .fail "invalid year value"
          else .ok parsedMonth parsedDay (some yearValue)

/-- Split at every newline, keeping empty segments: Go
`strings.Split(text, "\n")` on a character list. -/
def splitLines : List Char → List (List Char)
  | [] => [[]]
  | c :: rest =>
    if c = '\n' then [] :: splitLines rest
    else
      match splitLines rest with
      | l :: ls => (c :: l) :: ls
      | [] => [[c]]

/-- Go `strings.Split(s, "\n")`. -/
def goSplitNewline (s : String) : List String :=
  (splitLines s.data).map (fun cs => (⟨cs⟩ : String))

/-- `parsedProfileInput` (Go zero values as defaults; the zero
`time.Time` is year 1, Jan 1). -/
structure ParsedProfileInput where
  hasBirthday : Bool := false
  birthdayDay : Int := 0
  birthdayMon : Int := 0
  birthdayYr : Option Int := none
  hasHireDate : Bool := false
  hireDate : GoDate := ⟨1, 1, 1⟩
deriving DecidableEq, Repr

/-- The line loop of `parseNamedDateProfileInput`, carrying the
accumulated `parsed` value and the `usedNamedMode` flag. -/
def namedDateLoop : List String → ParsedProfileInput → Bool →
    Except String (ParsedProfileInput × Bool)
  | [], parsed, used => .ok (parsed, used)
  | line :: rest, parsed, used =>
    if goTrimSpace line = "" then namedDateLoop rest parsed used
    else
      match parseNamedDateLine (goTrimSpace line) with
      | .fail msg => .error msg
      | .noMatch =>
        if used then .error "invalid date line format"
        else namedDateLoop rest parsed used
      | .ok month day none =>
        if parsed.hasBirthday then .error "multiple birthday lines provided"
        else namedDateLoop rest
          { parsed with hasBirthday := true, birthdayDay := day,
                        birthdayMon := month, birthdayYr := none } true
      | .ok month day (some year) =>
        if parsed.hasHireDate then .error "multiple hire date lines provided"
        else
          let hireDate := goDate year month day
          if hireDate.month ≠ month ∨ hireDate.day ≠ day then .error "invalid hire date"
          else namedDateLoop rest
            { parsed with hasHireDate := true, hireDate := hireDate } true

/-- `parseNamedDateProfileInput`: returns the parse result together with
the `usedNamedMode` flag (`true` on every error return, as in the
source). -/
def parseNamedDateProfileInput (text : String) :
    Except String ParsedProfileInput × Bool :=
  match namedDateLoop (goSplitNewline text) {} false with
  | .error msg => (.error msg, true)
  | .ok (parsed, used) =>
    if !used then (.ok parsed, false)
    else if !parsed.hasBirthday && !parsed.hasHireDate then
      (.error "no birthday or hire date found", true)
    else (.ok parsed, true)

/-- Legacy day/month/year core `([0-3]?\d)[/.-]([01]?\d)(?:[/.-](\d{4}))?`
matched at the head of `cs`, with nothing after it in the pattern (the
enclosing patterns are unanchored on the right here).  The two-digit day
alternative is explored first and commits exactly when a separator and a
month digit follow it; the month group takes two digits when it can
(`[01]?\d` greedy, and the optional year group can always fall back to
empty); the year group takes a separator plus four digits when present. -/
def dayMonthYearAt (cs : List Char) : Option (List Char × List Char × List Char) :=
  let core : List Char → List Char → Option (List Char × List Char × List Char) :=
    fun day rest =>
      let (mon, rest') :=
        match rest with
        | m1 :: m2 :: r => if (m1 = '0' || m1 = '1') && isDigitC m2 then ([m1, m2], r) else ([m1], m2 :: r)
        | [m1] => ([m1], [])
        | [] => ([], [])
      let year : List Char :=
        match rest' with
        | s :: y1 :: y2 :: y3 :: y4 :: _ =>
          if matchSep s && isDigitC y1 && isDigitC y2 && isDigitC y3 && isDigitC y4 then
            [y1, y2, y3, y4]
          else []
        | _ => []
      some (day, mon, year)
  match cs with
  | d1 :: d2 :: s :: m1 :: rest =>
    if isDigitC d1 && d1 ≤ '3' && isDigitC d2 && matchSep s && isDigitC m1 then
      core [d1, d2] (m1 :: rest)
    else if isDigitC d1 && matchSep d2 && isDigitC s then
      core [d1] (s :: m1 :: rest)
    else none
  | [d1, d2, s] =>
    if isDigitC d1 && matchSep d2 && isDigitC s then core [d1] [s] else none
  | _ => none

/-- One attempt of `birthdayPattern =
(?i)\bbirthday\b\s*[:=-]?\s*([0-3]?\d)[/.-]([01]?\d)(?:[/.-](\d{4}))?`
at a fixed position; `prev` is the character before the position for the
leading `\b`.  The optional `[:=-]` is never a digit, so taking it when
present loses no match. -/
def birthdayAt (prev : Option Char) (cs : List Char) :
    Option (List Char × List Char × List Char) :=
  if (match prev with | some p => isWordChar p | none => false) then none
  else if !startsWithCI "birthday".data cs then none
  else
    let rest := cs.drop 8
    if (match rest.head? with | some c => isWordChar c | none => false) then none
    else
      let r1 := rest.dropWhile isReSpace
      let r2 := match r1 with
        | c :: t => if matchPunct c then t else r1
        | [] => ([] : List Char)
      dayMonthYearAt (r2.dropWhile isReSpace)

/-- Leftmost match of `birthdayPattern` (scan of all start positions). -/
def scanBirthday : Option Char → List Char → Option (List Char × List Char × List Char)
  | prev, cs =>
    match birthdayAt prev cs with
    | some r => some r
    | none =>
      match cs with
      | [] => none
      | c :: rest => scanBirthday (some c) rest

/-- Keyword piece `a[_ ]?b` (case-insensitive) of `hirePattern`, returning
the remainder after the keyword.  The greedy optional separator commits
when `b` follows it; the fallback without separator can only apply when no
separator is present, since `b` never starts with `_` or a space. -/
def kwMatch (a b : List Char) (cs : List Char) : Option (List Char) :=
  if !startsWithCI a cs then none
  else
    match cs.drop a.length with
    | [] => none
    | c :: t =>
      if (c = '_' || c = ' ') && startsWithCI b t then some (t.drop b.length)
      else if startsWithCI b (c :: t) then some ((c :: t).drop b.length)
      else none

/-- One attempt of `hirePattern =
(?i)\b(?:hire[_ ]?date|start[_ ]?date|work[_ ]?start)\b\s*[:=-]?\s*(\d{4}-\d{2}-\d{2})`
at a fixed position.  The three keyword alternatives start with distinct
letters, so the leftmost-first alternation is a disjoint case split. -/
def hireAt (prev : Option Char) (cs : List Char) :
    Option (List Char × List Char × List Char) :=
  if (match prev with | some p => isWordChar p | none => false) then none
  else
    match (kwMatch "hire".data "date".data cs).orElse
        (fun _ => (kwMatch "start".data "date".data cs).orElse
          (fun _ => kwMatch "work".data "start".data cs)) with
    | none => none
    | some rest =>
      if (match rest.head? with | some c => isWordChar c | none => false) then none
      else
        let r1 := rest.dropWhile isReSpace
        let r2 := match r1 with
          | c :: t => if matchPunct c then t else r1
          | [] => ([] : List Char)
        match r2.dropWhile isReSpace with
        | y1 :: y2 :: y3 :: y4 :: h1 :: m1 :: m2 :: h2 :: d1 :: d2 :: _ =>
          if isDigitC y1 && isDigitC y2 && isDigitC y3 && isDigitC y4 && h1 = '-' &&
              isDigitC m1 && isDigitC m2 && h2 = '-' && isDigitC d1 && isDigitC d2 then
            some ([y1, y2, y3, y4], [m1, m2], [d1, d2])
          else none
        | _ => none

/-- Leftmost match of `hirePattern`. -/
def scanHire : Option Char → List Char → Option (List Char × List Char × List Char)
  | prev, cs =>
    match hireAt prev cs with
    | some r => some r
    | none =>
      match cs with
      | [] => none
      | c :: rest => scanHire (some c) rest

/-- `onlyBirthday = ^\s*([0-3]?\d)[/.-]([01]?\d)(?:[/.-](\d{4}))?\s*$`,
with full leftmost-first backtracking over the day and month group widths
and the optional year group (the pattern is anchored on both sides, so the
wider alternatives can genuinely fail and fall back). -/
def onlyBirthdayMatch (cs : List Char) : Option (List Char × List Char × List Char) :=
  let year : List Char → List Char → List Char → Option (List Char × List Char × List Char) :=
    fun day mon rest =>
      (match rest with
       | s :: y1 :: y2 :: y3 :: y4 :: r =>
         if matchSep s && isDigitC y1 && isDigitC y2 && isDigitC y3 && isDigitC y4 &&
             (r.dropWhile isReSpace).isEmpty then
           some (day, mon, [y1, y2, y3, y4])
         else none
       | _ => none).orElse
      (fun _ => if (rest.dropWhile isReSpace).isEmpty then some (day, mon, []) else none)
  let month : List Char → List Char → Option (List Char × List Char × List Char) :=
    fun day rest =>
      (match rest with
       | m1 :: m2 :: r =>
         if (m1 = '0' || m1 = '1') && isDigitC m2 then year day [m1, m2] r else none
       | _ => none).orElse
      (fun _ =>
        match rest with
        | m1 :: r => if isDigitC m1 then year day [m1] r else none
        | [] => none)
  let cs := cs.dropWhile isReSpace
  (match cs with
   | d1 :: d2 :: s :: r =>
     if isDigitC d1 && d1 ≤ '3' && isDigitC d2 && matchSep s then month [d1, d2] r else none
   | _ => none).orElse
  (fun _ =>
    match cs with
    | d1 :: s :: r => if isDigitC d1 && matchSep s then month [d1] r else none
    | _ => none)

/-- `onlyHireDate = ^\s*(\d{4}-\d{2}-\d{2})\s*$` (fully deterministic). -/
def onlyHireDateMatch (cs : List Char) : Option (List Char × List Char × List Char) :=
  match cs.dropWhile isReSpace with
  | y1 :: y2 :: y3 :: y4 :: h1 :: m1 :: m2 :: h2 :: d1 :: d2 :: rest =>
    if isDigitC y1 && isDigitC y2 && isDigitC y3 && isDigitC y4 && h1 = '-' &&
        isDigitC m1 && isDigitC m2 && h2 = '-' && isDigitC d1 && isDigitC d2 &&
        (rest.dropWhile isReSpace).isEmpty then
      some ([y1, y2, y3, y4], [m1, m2], [d1, d2])
    else none
  | _ => none

/-- `parseBirthdayParts` (the `Atoi` error branches are unreachable: the
captures are all-digit strings). -/
def parseBirthdayParts (dayRaw monthRaw yearRaw : List Char) :
    Except String (Int × Int × Option Int) :=
  let day := digitsToInt dayRaw
  let month := digitsToInt monthRaw
  if day < 1 ∨ day > 31 ∨ month < 1 ∨ month > 12 then .error "invalid birthday value"
  else if !validDayMonth day month then .error "invalid birthday date"
  else if yearRaw.isEmpty then .ok (day, month, none)
  else
    let year := digitsToInt yearRaw
    if year < 1900 ∨ year > 3000 then .error "invalid birthday year"
    else .ok (day, month, some year)

/-- Go `time.Parse("2006-01-02", s)` on a `YYYY-MM-DD` string: strict
calendar validation (no normalization). -/
def goTimeParseDate (y m d : Int) : Option GoDate :=
  if 1 ≤ m ∧ m ≤ 12 ∧ 1 ≤ d ∧ d ≤ daysInMonth y m then some ⟨y, m, d⟩ else none

/-- `parseLegacyProfileInput`: `birthdayPattern` first, else
`onlyBirthday`; independently `hirePattern` first, else `onlyHireDate`;
error if neither component matched. -/
def parseLegacyProfileInput (clean : String) : Except String ParsedProfileInput :=
  let cs := clean.data
  let bdMatch := match scanBirthday none cs with
    | some r => some r
    | none => onlyBirthdayMatch cs
  let hdMatch := match scanHire none cs with
    | some r => some r
    | none => onlyHireDateMatch cs
  match bdMatch with
  | some (ds, ms, ys) =>
    match parseBirthdayParts ds ms ys with
    | .error e => .error e
    | .ok (day, month, yearPtr) =>
      match hdMatch with
      | some (hy, hm, hd) =>
        match goTimeParseDate (digitsToInt hy) (digitsToInt hm) (digitsToInt hd) with
        | none => .error "invalid hire date format (use YYYY-MM-DD)"
        | some date =>
          .ok { hasBirthday := true, birthdayDay := day, birthdayMon := month,
                birthdayYr := yearPtr, hasHireDate := true, hireDate := date }
      | none =>
        .ok { hasBirthday := true, birthdayDay := day, birthdayMon := month,
              birthdayYr := yearPtr }
  | none =>
    match hdMatch with
    | some (hy, hm, hd) =>
      match goTimeParseDate (digitsToInt hy) (digitsToInt hm) (digitsToInt hd) with
      | none => .error "invalid hire date format (use YYYY-MM-DD)"
      | some date => .ok { hasHireDate := true, hireDate := date }
    | none => .error "no birthday or hire date found"

/-- `parseProfileInput`: trim, reject empty, try the named-date grammar
(returning its result when it claimed the input or errored), else the
legacy grammar. -/
def parseProfileInput (text : String) : Except String ParsedProfileInput :=
  let clean := goTrimSpace text
  if clean = "" then .error "empty message"
  else
    match parseNamedDateProfileInput clean with
    | (r, true) => r
    | (.error msg, false) => .error msg
    | (.ok _, false) => parseLegacyProfileInput clean

/-! ## Dispatch model

`internal/service/celebration_service.go` together with the repository
queries it calls (`internal/repository/people_repository.go`).  Instants
are `Int` seconds since the Unix epoch; a time zone is modeled as a
function from instant to UTC offset in seconds (covering DST), supplied by
an environment-level zone database standing for `time.LoadLocation` and
SQL `timezone(...)`.  The environment also injects the failure outcome of
each repository / outbound call, so that error paths are part of the
model. -/

/-- `domain.WorkspaceChannel` (fields the dispatch core reads; the
`posting_time` column is its hour and minute). -/
structure Channel where
  id : String
  workspaceID : String
  slackChannelID : String
  postingHour : Int
  postingMinute : Int
  timezone : String
  birthdaysEnabled : Bool
  anniversariesEnabled : Bool
  birthdayTemplate : String
  anniversaryTemplate : String
  brandingEmoji : String
deriving DecidableEq, Repr

/-- `domain.Person` (fields the core reads). -/
structure Person where
  workspaceID : String := ""
  slackUserID : String := ""
  slackHandle : String := ""
  displayName : String := ""
  avatarURL : String := ""
  birthdayDay : Option Int := none
  birthdayMonth : Option Int := none
  birthdayYear : Option Int := none
  hireDate : Option GoDate := none
  publicCelebrationOptIn : Bool := false
  remindersMode : String := ""
deriving DecidableEq, Repr

/-- One successfully posted Slack message
(`slack.Client.PostMessage` call that returned no error). -/
structure PostRecord where
  workspaceID : String
  channelID : String
  text : String
  avatars : List String
deriving DecidableEq, Repr

/-- Persistent state touched by the dispatch core: the channel and people
tables, the `celebration_dispatch_log` table (rows are (channel id, local
day number)), and the list of messages that went out. -/
structure World where
  channels : List Channel
  people : List Person
  dispatchLog : List (String × Int)
  posts : List PostRecord
deriving DecidableEq, Repr

/-- Modeled external environment: the zone database and the injected
outcome of each fallible call (`none` = the call succeeds). -/
structure Env where
  tzdb : String → Option (Int → Int)
  findBirthdaysErr : String → Int → Int → Option String
  findAnniversariesErr : String → Int → Int → Int → Option String
  postErr : PostRecord → Option String
  markErr : String → Int → Option String

/-- `channelRunOutcome`. -/
structure Outcome where
  birthdayCount : Int := 0
  anniversaryCount : Int := 0
  birthdayPosted : Bool := false
  anniversaryPosted : Bool := false
deriving DecidableEq, Repr

/-- `ManualChannelResult`. -/
structure ManualChannelResult where
  channelID : String
  slackChannelID : String
  birthdayCount : Int := 0
  anniversaryCount : Int := 0
  birthdayPosted : Bool := false
  anniversaryPosted : Bool := false
  error : String := ""
deriving DecidableEq, Repr

/-- `ManualDispatchResult`. -/
structure ManualDispatchResult where
  workspaceID : String
  channelsProcessed : Int
  birthdayPosts : Int := 0
  anniversaryPosts : Int := 0
  channelDispatches : List ManualChannelResult := []
  channelsWithErrors : Int := 0
deriving DecidableEq, Repr

/-- `PeopleRepository.FindBirthdaysByWorkspaceAndDate`: opted-in people of
the workspace whose stored (month, day) equals the query pair (the SQL
`ORDER BY display_name` only affects mention order and is not modeled). -/
def findBirthdaysByWorkspaceAndDate (env : Env) (w : World)
    (workspaceID : String) (month day : Int) : Except String (List Person) :=
  match env.findBirthdaysErr workspaceID month day with
  | some e => .error e
  | none => .ok (w.people.filter (fun p =>
      p.workspaceID = workspaceID && p.publicCelebrationOptIn &&
      p.birthdayMonth = some month && p.birthdayDay = some day))

/-- `PeopleRepository.FindAnniversariesByWorkspaceAndDate`: opted-in
people with a hire date whose (month, day) equals the query pair, paired
with `queryYear - hireYear`. -/
def findAnniversariesByWorkspaceAndDate (env : Env) (w : World)
    (workspaceID : String) (month day year : Int) :
    Except String (List (Person × Int)) :=
  match env.findAnniversariesErr workspaceID month day year with
  | some e => .error e
  | none => .ok ((w.people.filter (fun p =>
      p.workspaceID = workspaceID && p.publicCelebrationOptIn &&
      (match p.hireDate with
       | some hd => hd.month = month && hd.day = day
       | none => false))).map (fun p =>
        (p, year - (match p.hireDate with | some hd => hd.year | none => 0))))

/-- `slack.Client.PostMessage` as a world transformer: on success the
message is recorded. -/
def postMessage (env : Env) (w : World) (workspaceID channelID text : String)
    (avatars : List String) : Except String World :=
  match env.postErr ⟨workspaceID, channelID, text, avatars⟩ with
  | some e => .error e
  | none => .ok { w with posts := w.posts ++ [⟨workspaceID, channelID, text, avatars⟩] }

/-- `WorkspaceRepository.MarkChannelDispatched`:
`INSERT ... ON CONFLICT (workspace_channel_id, dispatch_date) DO NOTHING`. -/
def markChannelDispatched (log : List (String × Int)) (channelID : String)
    (localDay : Int) : List (String × Int) :=
  if (channelID, localDay) ∈ log then log else log ++ [(channelID, localDay)]

/-- `mentionPeople`. -/
def mentionPeople (people : List Person) : String :=
  String.intercalate ", " (people.map (fun p => "<@" ++ p.slackUserID ++ ">"))

/-- `renderTemplate` (birthday path: `{users}` substituted, `{years}`
blanked, result trimmed). -/
def renderTemplate (template : String) (people : List Person) : String :=
  goTrimSpace (((template.replace "\x7busers\x7d" (mentionPeople people)).replace
    "\x7byears\x7d" ""))

/-- `renderAnniversaryTemplate`. -/
def renderAnniversaryTemplate (template : String)
    (anniversaries : List (Person × Int)) : String :=
  let mentions := String.intercalate ", "
    (anniversaries.map (fun a => "<@" ++ a.1.slackUserID ++ ">"))
  let years := String.intercalate ", " (anniversaries.map (fun a => toString a.2))
  goTrimSpace ((template.replace "\x7busers\x7d" mentions).replace "\x7byears\x7d" years)

/-- `avatarURLs`. -/
def avatarURLs (people : List Person) : List String :=
  (people.filter (fun p => p.avatarURL ≠ "")).map (fun p => p.avatarURL)

/-- `avatarURLsFromAnniversaries`. -/
def avatarURLsFromAnniversaries (people : List (Person × Int)) : List String :=
  (people.filter (fun p => p.1.avatarURL ≠ "")).map (fun p => p.1.avatarURL)

/-- `appendBrandingEmoji`. -/
def appendBrandingEmoji (message emoji : String) : String :=
  if goTrimSpace emoji = "" then message else message ++ " " ++ goTrimSpace emoji

/-- Birthday half of `runChannelCelebrationWithResult`: returns
(birthday count, posted flag, updated world). -/
def runBirthdaysStep (env : Env) (w : World) (c : Channel) (month day : Int) :
    Except String (Int × Bool × World) :=
  if !c.birthdaysEnabled then .ok (0, false, w)
  else
    match findBirthdaysByWorkspaceAndDate env w c.workspaceID month day with
    | .error e => .error e
    | .ok birthdays =>
      if birthdays.length > 0 then
        let message := appendBrandingEmoji (renderTemplate c.birthdayTemplate birthdays)
          c.brandingEmoji
        match postMessage env w c.workspaceID c.slackChannelID message
            (avatarURLs birthdays) with
        | .error e => .error ("post birthday message: " ++ e)
        | .ok w1 => .ok ((birthdays.length : Int), true, w1)
      else .ok ((birthdays.length : Int), false, w)

/-- Anniversary half of `runChannelCelebrationWithResult`. -/
def runAnniversariesStep (env : Env) (w : World) (c : Channel)
    (month day year : Int) : Except String (Int × Bool × World) :=
  if !c.anniversariesEnabled then .ok (0, false, w)
  else
    match findAnniversariesByWorkspaceAndDate env w c.workspaceID month day year with
    | .error e => .error e
    | .ok anniversaries =>
      if anniversaries.length > 0 then
        let message := appendBrandingEmoji
          (renderAnniversaryTemplate c.anniversaryTemplate anniversaries) c.brandingEmoji
        match postMessage env w c.workspaceID c.slackChannelID message
            (avatarURLsFromAnniversaries anniversaries) with
        | .error e => .error ("post anniversary message: " ++ e)
        | .ok w1 => .ok ((anniversaries.length : Int), true, w1)
      else .ok ((anniversaries.length : Int), false, w)

/-- `runChannelCelebrationWithResult`: resolve the zone, compute the local
(year, month, day), run the birthday then the anniversary half, then mark
the channel dispatched for the local date.  A failure returns the world as
mutated so far (a failed call itself changes nothing). -/
def runChannelCelebrationWithResult (env : Env) (w : World) (c : Channel)
    (now : Int) : Except String Outcome × World :=
  match env.tzdb c.timezone with
  | none => (.error ("invalid channel timezone " ++ c.timezone), w)
  | some off =>
    let localSecs := now + off now
    let localDay := localSecs / 86400
    let ymd := civilFromDays localDay
    match runBirthdaysStep env w c ymd.2.1 ymd.2.2 with
    | .error e => (.error e, w)
    | .ok (bCount, bPosted, w1) =>
      match runAnniversariesStep env w1 c ymd.2.1 ymd.2.2 ymd.1 with
      | .error e => (.error e, w1)
      | .ok (aCount, aPosted, w2) =>
        match env.markErr c.id localDay with
        | some e => (.error ("mark channel dispatched: " ++ e), w2)
        | none =>
          (.ok ⟨bCount, aCount, bPosted, aPosted⟩,
           { w2 with dispatchLog := markChannelDispatched w2.dispatchLog c.id localDay })

/-- Due predicate of `WorkspaceRepository.ListDueChannels`: the local hour
and minute at `now` equal the posting time and no dispatch-log row exists
for (channel, local date).  A channel whose zone the modeled database
cannot resolve is not returned (in SQL the whole query would fail; the
claims quantify over resolvable zones). -/
def channelDue (env : Env) (w : World) (now : Int) (c : Channel) : Bool :=
  match env.tzdb c.timezone with
  | none => false
  | some off =>
    let localSecs := now + off now
    (localSecs / 3600) % 24 = c.postingHour &&
    (localSecs / 60) % 60 = c.postingMinute &&
    (c.id, localSecs / 86400) ∉ w.dispatchLog

/-- `WorkspaceRepository.ListDueChannels`. -/
def listDueChannels (env : Env) (w : World) (now : Int) : List Channel :=
  w.channels.filter (channelDue env w now)

/-- `WorkspaceRepository.ListChannelsByWorkspace`. -/
def listChannelsByWorkspace (w : World) (workspaceID : String) : List Channel :=
  w.channels.filter (fun c => c.workspaceID = workspaceID)

/-- `CelebrationService.RunDueCelebrations`: run every due channel in
order; a failing channel is logged and skipped. -/
def RunDueCelebrations (env : Env) (w : World) (now : Int) : World :=
  (listDueChannels env w now).foldl
    (fun wa c => (runChannelCelebrationWithResult env wa c now).2) w

/-- `CelebrationService.RunWorkspaceNow`: the manual/bulk trigger —
every channel of the workspace, no due-check, per-channel errors
collected. -/
def RunWorkspaceNow (env : Env) (w : World) (workspaceID : String) (now : Int) :
    ManualDispatchResult × World :=
  let channels := listChannelsByWorkspace w workspaceID
  channels.foldl
    (fun (acc : ManualDispatchResult × World) c =>
      match runChannelCelebrationWithResult env acc.2 c now with
      | (.error e, w') =>
        ({ acc.1 with
            channelsWithErrors := acc.1.channelsWithErrors + 1,
            channelDispatches := acc.1.channelDispatches ++
              [{ channelID := c.id, slackChannelID := c.slackChannelID, error := e }] }, w')
      | (.ok o, w') =>
        ({ acc.1 with
            birthdayPosts := acc.1.birthdayPosts + (if o.birthdayPosted then 1 else 0),
            anniversaryPosts := acc.1.anniversaryPosts + (if o.anniversaryPosted then 1 else 0),
            channelDispatches := acc.1.channelDispatches ++
              [{ channelID := c.id, slackChannelID := c.slackChannelID,
                 birthdayCount := o.birthdayCount, anniversaryCount := o.anniversaryCount,
                 birthdayPosted := o.birthdayPosted, anniversaryPosted := o.anniversaryPosted }] }, w'))
    ({ workspaceID := workspaceID, channelsProcessed := (channels.length : Int) }, w)

/-! ## Inbound profile merge (`buildPersonUpsert`) -/

/-- `slackUserProfile`. -/
structure SlackUserProfile where
  slackHandle : String := ""
  displayName : String := ""
  avatarURL : String := ""
deriving DecidableEq, Repr

/-- `repository.UpsertPersonInput`. -/
structure UpsertPersonInput where
  workspaceID : String
  slackUserID : String
  slackHandle : String
  displayName : String
  avatarURL : String
  publicCelebrationOptIn : Bool
  remindersMode : String
  birthdayDay : Option Int
  birthdayMonth : Option Int
  birthdayYear : Option Int
  hireDate : Option GoDate
deriving DecidableEq, Repr

/-- Outcome of `PeopleRepository.GetByWorkspaceAndSlackUserID`:
found, `ErrNotFound`, or some other repository error. -/
inductive LookupResult where
  | found (p : Person)
  | notFound
  | repoError (msg : String)

/-- `fallbackString` (variadic in Go): first value whose trimmed form is
nonempty, returned trimmed. -/
def fallbackString : List String → String
  | [] => ""
  | v :: rest => if goTrimSpace v ≠ "" then goTrimSpace v else fallbackString rest

/-- `SlackInboundService.buildPersonUpsert` with the repository lookup
outcome passed in.  `ErrNotFound` leaves `existing` the Go zero `Person`;
only a found record carries its opt-in flag and (nonblank) reminders mode
over. -/
def buildPersonUpsert (lookup : LookupResult) (workspaceID slackUserID : String)
    (parsed : ParsedProfileInput) (profile : SlackUserProfile) :
    Except String UpsertPersonInput :=
  match lookup with
  | .repoError msg => .error msg
  | _ =>
    let existing : Person := match lookup with | .found p => p | _ => {}
    let base : UpsertPersonInput :=
      { workspaceID := workspaceID
        slackUserID := slackUserID
        slackHandle := fallbackString [profile.slackHandle, existing.slackHandle, slackUserID]
        displayName := fallbackString [profile.displayName, existing.displayName, slackUserID]
        avatarURL := fallbackString [profile.avatarURL, existing.avatarURL, ""]
        publicCelebrationOptIn := true
        remindersMode := "same_day"
        birthdayDay := existing.birthdayDay
        birthdayMonth := existing.birthdayMonth
        birthdayYear := existing.birthdayYear
        hireDate := existing.hireDate }
    let base := match lookup with
      | .found p =>
        { base with
            publicCelebrationOptIn := p.publicCelebrationOptIn,
            remindersMode := if goTrimSpace p.remindersMode ≠ "" then p.remindersMode
                             else base.remindersMode }
      | _ => base
    let base := if parsed.hasBirthday then
        { base with birthdayDay := some parsed.birthdayDay,
                    birthdayMonth := some parsed.birthdayMon,
                    birthdayYear := parsed.birthdayYr }
      else base
    let base := if parsed.hasHireDate then { base with hireDate := some parsed.hireDate }
      else base
    .ok base

/-! ## Concrete fixtures for witnesses and counterexamples -/

/-- Fixture offset: UTC. -/
def offFix : Int → Int := fun _ => 0

/-- Fixture environment: every zone resolves to UTC, no injected
failures. -/
def envFix : Env :=
  { tzdb := fun _ => some offFix
    findBirthdaysErr := fun _ _ _ => none
    findAnniversariesErr := fun _ _ _ _ => none
    postErr := fun _ => none
    markErr := fun _ _ => none }

/-- Fixture channel: birthdays enabled, posts at 00:00 UTC. -/
def chFix : Channel :=
  { id := "ch1", workspaceID := "W", slackChannelID := "C123"
    postingHour := 0, postingMinute := 0, timezone := "UTC"
    birthdaysEnabled := true, anniversariesEnabled := false
    birthdayTemplate := "Happy birthday {users}!"
    anniversaryTemplate := "Congrats {users} on {years} years!"
    brandingEmoji := "" }

/-- Fixture person with a January 1 birthday (the local date at instant
0). -/
def pFix : Person :=
  { workspaceID := "W", slackUserID := "U1", slackHandle := "dana"
    displayName := "Dana", avatarURL := ""
    birthdayDay := some 1, birthdayMonth := some 1
    publicCelebrationOptIn := true, remindersMode := "same_day" }

/-- Fixture world with one matching birthday and an empty dispatch log. -/
def wFix : World :=
  { channels := [chFix], people := [pFix], dispatchLog := [], posts := [] }

/-- Fixture world with no people. -/
def wFixEmpty : World :=
  { channels := [chFix], people := [], dispatchLog := [], posts := [] }

/-- Fixture world already holding the dispatch-log row for channel `ch1`
on local day 0. -/
def wFixLogged : World :=
  { channels := [chFix], people := [pFix], dispatchLog := [("ch1", 0)], posts := [] }

/-- Fixture person for the inbound merge claim. -/
def pSaved : Person :=
  { workspaceID := "W", slackUserID := "U1", slackHandle := "alpha_saved"
    displayName := "Alpha", avatarURL := ""
    birthdayDay := some 25, birthdayMonth := some 3, birthdayYear := none
    hireDate := none, publicCelebrationOptIn := true, remindersMode := "same_day" }

/-- Fixture parsed input carrying only a hire date. -/
def parsedHireOnly : ParsedProfileInput :=
  { hasHireDate := true, hireDate := ⟨2024, 1, 23⟩ }


/-! ## Helper lemmas on the date arithmetic -/

theorem isLeap_spec (y : Int) :
    isLeap y = true ↔ (y % 4 = 0 ∧ (y % 100 ≠ 0 ∨ y % 400 = 0)) := by
  simp [isLeap]

theorem daysInMonth_lb (y m : Int) : 28 ≤ daysInMonth y m := by
  unfold daysInMonth; split_ifs <;> omega

theorem daysInMonth_ub (y m : Int) : daysInMonth y m ≤ 31 := by
  unfold daysInMonth; split_ifs <;> omega

theorem normDays_id (fuel : Nat) (y m d : Int) (h1 : 1 ≤ d)
    (h2 : d ≤ daysInMonth y m) : normDays (fuel + 1) y m d = ⟨y, m, d⟩ := by
  unfold normDays
  rw [if_neg (by omega), if_neg (by omega)]

theorem goDate_id (y m d : Int) (hm1 : 1 ≤ m) (hm2 : m ≤ 12) (hd1 : 1 ≤ d)
    (hd2 : d ≤ daysInMonth y m) : goDate y m d = ⟨y, m, d⟩ := by
  unfold goDate
  have e1 : (m - 1) / 12 = 0 := by omega
  have e2 : (m - 1) % 12 = m - 1 := by omega
  rw [e1, e2]
  rw [show y + 0 = y by ring, show m - 1 + 1 = m by ring,
    show (1000 : Nat) = 999 + 1 from rfl]
  exact normDays_id 999 y m d hd1 hd2

theorem goDate_carry (y m d : Int) (hm1 : 1 ≤ m) (hm2 : m ≤ 12)
    (hd1 : daysInMonth y m < d) (hd2 : d ≤ 31) :
    goDate y m d = ⟨y, m + 1, d - daysInMonth y m⟩ ∧ m ≤ 11 := by
  have hub := daysInMonth_ub y m
  have hlb := daysInMonth_lb y m
  have hm12 : m ≠ 12 := by
    intro h; subst h
    simp only [daysInMonth, isLeap] at hd1
    split_ifs at hd1 <;> omega
  refine ⟨?_, by omega⟩
  unfold goDate
  have e1 : (m - 1) / 12 = 0 := by omega
  have e2 : (m - 1) % 12 = m - 1 := by omega
  rw [e1, e2, show y + 0 = y by ring, show m - 1 + 1 = m by ring,
    show (1000 : Nat) = 999 + 1 from rfl]
  unfold normDays
  rw [if_neg (by omega), if_pos (by omega), if_neg hm12]
  have hlb' := daysInMonth_lb y (m + 1)
  exact normDays_id 998 y (m + 1) (d - daysInMonth y m) (by omega) (by omega)


theorem daysBefore_nonneg (m : Int) (h1 : 1 ≤ m) (h2 : m ≤ 12) : 0 ≤ daysBefore m := by
  interval_cases m <;> simp [daysBefore]

theorem daysBefore_ub (m : Int) (h1 : 1 ≤ m) (h2 : m ≤ 12) : daysBefore m ≤ 334 := by
  interval_cases m <;> norm_num [daysBefore]

theorem toDays_ge_jan1 (y m d : Int) (h1 : 1 ≤ m) (h2 : m ≤ 12) (h3 : 1 ≤ d) :
    toDays ⟨y, 1, 1⟩ ≤ toDays ⟨y, m, d⟩ := by
  unfold toDays
  simp only
  have hb := daysBefore_nonneg m h1 h2
  split_ifs <;> simp [daysBefore] <;> omega

theorem toDays_le_jan1_add (y m d : Int) (h1 : 1 ≤ m) (h2 : m ≤ 12) (h4 : d ≤ 31) :
    toDays ⟨y, m, d⟩ ≤ toDays ⟨y, 1, 1⟩ + 365 := by
  unfold toDays
  simp only
  have hb := daysBefore_ub m h1 h2
  split_ifs <;> simp [daysBefore] <;> omega

theorem toDays_range (dt : GoDate) (h : ValidDate dt) :
    toDays ⟨dt.year, 1, 1⟩ ≤ toDays dt ∧
    toDays dt ≤ toDays ⟨dt.year, 1, 1⟩ + 364 + (if isLeap dt.year then 1 else 0) := by
  obtain ⟨h1, h2, h3, h4⟩ := h
  obtain ⟨y, m, d⟩ := dt
  simp only at *
  refine ⟨toDays_ge_jan1 y m d h1 h2 h3, ?_⟩
  unfold toDays
  simp only
  cases hL : isLeap y <;>
    simp only [hL, daysInMonth] at h4 <;>
    interval_cases m <;>
    simp_all [daysBefore] <;> omega

theorem toDays_jan1_succ (y : Int) :
    toDays ⟨y + 1, 1, 1⟩ = toDays ⟨y, 1, 1⟩ + 365 + (if isLeap y then 1 else 0) := by
  have hs := isLeap_spec y
  unfold toDays daysBefore
  cases hL : isLeap y <;> simp only [hL] at hs ⊢ <;> simp at hs ⊢ <;> omega

theorem toDays_year_step (y m d : Int) (h1 : 1 ≤ m) (h2 : m ≤ 12) :
    toDays ⟨y + 1, m, d⟩ ≤ toDays ⟨y, m, d⟩ + 366 := by
  have hs1 := isLeap_spec y
  have hs2 := isLeap_spec (y + 1)
  unfold toDays
  simp only
  cases hL1 : isLeap y <;> cases hL2 : isLeap (y + 1) <;>
    simp only [hL1, hL2] at hs1 hs2 ⊢ <;>
    simp at hs1 hs2 <;>
    by_cases h3 : 3 ≤ m <;> simp [h3] <;> omega

theorem toDays_goDate (y m d : Int) (hm1 : 1 ≤ m) (hm2 : m ≤ 12) (hd1 : 1 ≤ d)
    (hd2 : d ≤ 31) : toDays (goDate y m d) = toDays ⟨y, m, d⟩ := by
  by_cases hc : d ≤ daysInMonth y m
  · rw [goDate_id y m d hm1 hm2 hd1 hc]
  · obtain ⟨he, hm11⟩ := goDate_carry y m d hm1 hm2 (by omega) hd2
    rw [he]
    unfold toDays
    simp only
    cases hL : isLeap y <;>
      simp only [hL, daysInMonth] at hc ⊢ <;>
      interval_cases m <;>
      simp_all [daysBefore, daysInMonth] <;> omega

theorem goDate_valid (y m d : Int) (hm1 : 1 ≤ m) (hm2 : m ≤ 12) (hd1 : 1 ≤ d)
    (hd2 : d ≤ 31) : ValidDate (goDate y m d) ∧ (goDate y m d).year = y := by
  by_cases hc : d ≤ daysInMonth y m
  · rw [goDate_id y m d hm1 hm2 hd1 hc]
    exact ⟨⟨hm1, hm2, hd1, hc⟩, rfl⟩
  · obtain ⟨he, hm11⟩ := goDate_carry y m d hm1 hm2 (by omega) hd2
    rw [he]
    have hlb := daysInMonth_lb y m
    have hub := daysInMonth_ub y m
    have hlb2 := daysInMonth_lb y (m + 1)
    refine ⟨⟨?_, ?_, ?_, ?_⟩, rfl⟩ <;> dsimp only [ValidDate] <;> omega

theorem daysInMonth_nonleap_le (y m : Int) : daysInMonth 2023 m ≤ daysInMonth y m := by
  unfold daysInMonth isLeap
  norm_num
  split_ifs <;> omega

/-! ## Claim C7 -/

/-- Claim C7: for every valid (month, day) pair — month in [1,12] and day
valid for that month in a non-leap year — `nextOccurrence` applied with a
day-boundary reference date whose month and day are exactly that pair
returns the reference date itself: an occurrence equal to today counts as
due today, not skipped. -/
theorem C7_nextOccurrence_today (ref : GoDate) (m d : Int) (hv : ValidDate ref)
    (h1 : 1 ≤ m) (h2 : m ≤ 12) (h3 : 1 ≤ d) (h4 : d ≤ daysInMonth 2023 m)
    (hm : ref.month = m) (hd : ref.day = d) : nextOccurrence ref m d = ref := by
  have hd2 : d ≤ daysInMonth ref.year m := le_trans h4 (daysInMonth_nonleap_le ref.year m)
  have hid : goDate ref.year m d = ref := by
    rw [goDate_id ref.year m d h1 h2 h3 hd2]
    obtain ⟨ry, rm, rd⟩ := ref
    simp only at hm hd
    rw [hm, hd]
  unfold nextOccurrence
  simp only [hid]
  have hrefl : dateBefore ref ref = false := by simp [dateBefore]
  rw [hrefl]
  simp

/-- Witness for C7 at reference 2025-03-25 with (month, day) = (3, 25). -/
theorem C7_witness : nextOccurrence ⟨2025, 3, 25⟩ 3 25 = ⟨2025, 3, 25⟩ :=
  C7_nextOccurrence_today ⟨2025, 3, 25⟩ 3 25 (by decide) (by decide) (by decide)
    (by decide) (by decide) rfl rfl

/-! ## Claim C8 -/

/-- Claim C8: for every (month, day) with month in [1,12] and day in
[1,31] and every valid day-boundary reference date, the result of
`nextOccurrence` is never before the reference and is within 366 days of
it. -/
theorem C8_nextOccurrence_window (ref : GoDate) (m d : Int) (hv : ValidDate ref)
    (h1 : 1 ≤ m) (h2 : m ≤ 12) (h3 : 1 ≤ d) (h4 : d ≤ 31) :
    toDays ref ≤ toDays (nextOccurrence ref m d) ∧
      toDays (nextOccurrence ref m d) ≤ toDays ref + 366 := by
  have hrange := toDays_range ref hv
  have hLb : (0 : Int) ≤ (if isLeap ref.year = true then 1 else 0) ∧
      (if isLeap ref.year = true then (1 : Int) else 0) ≤ 1 := by split <;> omega
  have htc : toDays (goDate ref.year m d) = toDays ⟨ref.year, m, d⟩ :=
    toDays_goDate ref.year m d h1 h2 h3 h4
  obtain ⟨hcv, hcy⟩ := goDate_valid ref.year m d h1 h2 h3 h4
  unfold nextOccurrence
  simp only
  set c := goDate ref.year m d with hcdef
  obtain ⟨hcm1, hcm2, hcd1, hcd4⟩ := hcv
  have hcd31 : c.day ≤ 31 := le_trans hcd4 (daysInMonth_ub _ _)
  cases hb : dateBefore c ref <;>
    simp only [Bool.false_eq_true, if_false, if_true]
  · simp only [dateBefore, decide_eq_false_iff_not, not_lt] at hb
    have hup := toDays_le_jan1_add ref.year m d h1 h2 h4
    exact ⟨hb, by omega⟩
  · simp only [dateBefore, decide_eq_true_eq] at hb
    have htc2 : toDays (goDate (c.year + 1) c.month c.day) =
        toDays ⟨c.year + 1, c.month, c.day⟩ :=
      toDays_goDate _ _ _ hcm1 hcm2 hcd1 hcd31
    have hlow := toDays_ge_jan1 (c.year + 1) c.month c.day hcm1 hcm2 hcd1
    have hsucc := toDays_jan1_succ ref.year
    have hstep := toDays_year_step ref.year c.month c.day hcm1 hcm2
    have heta : (⟨c.year, c.month, c.day⟩ : GoDate) = c := rfl
    rw [← hcy] at hsucc
    rw [← hcy] at hstep
    rw [heta] at hstep
    rw [htc2]
    rw [← hcy] at hrange hLb
    omega

/-- Witness for C8 at reference 2025-12-31 with (month, day) = (2, 29). -/
theorem C8_witness :
    toDays ⟨2025, 12, 31⟩ ≤ toDays (nextOccurrence ⟨2025, 12, 31⟩ 2 29) ∧
      toDays (nextOccurrence ⟨2025, 12, 31⟩ 2 29) ≤ toDays ⟨2025, 12, 31⟩ + 366 :=
  C8_nextOccurrence_window ⟨2025, 12, 31⟩ 2 29 (by decide) (by decide) (by decide)
    (by decide) (by decide)

/-! ## Claim C10 -/

/-- Claim C10 (implicit): for every valid reference date in a non-leap
year, `nextOccurrence reference 2 29` never returns a February 29: the
candidate normalizes to March 1 of the reference year, or March 1 of the
following year when the normalized candidate precedes the reference — so
the reported next birthday has (month, day) = (3, 1), differing from the
stored (2, 29). -/
theorem C10_nextOccurrence_feb29 (ref : GoDate) (hv : ValidDate ref)
    (hL : isLeap ref.year = false) :
    nextOccurrence ref 2 29 =
      (if toDays ⟨ref.year, 3, 1⟩ < toDays ref then ⟨ref.year + 1, 3, 1⟩
       else ⟨ref.year, 3, 1⟩) ∧
    (nextOccurrence ref 2 29).month = 3 ∧ (nextOccurrence ref 2 29).day = 1 := by
  have hdim : daysInMonth ref.year 2 = 28 := by simp [daysInMonth, hL]
  obtain ⟨hcarry, h11⟩ := goDate_carry ref.year 2 29 (by omega) (by omega)
    (by omega) (by omega)
  rw [hdim] at hcarry
  norm_num at hcarry
  have hnext : goDate (ref.year + 1) 3 1 = ⟨ref.year + 1, 3, 1⟩ :=
    goDate_id _ 3 1 (by omega) (by omega) (by omega)
      (le_trans (by omega) (daysInMonth_lb (ref.year + 1) 3))
  have hmain : nextOccurrence ref 2 29 =
      (if toDays ⟨ref.year, 3, 1⟩ < toDays ref then ⟨ref.year + 1, 3, 1⟩
       else ⟨ref.year, 3, 1⟩) := by
    unfold nextOccurrence
    simp only [hcarry]
    cases hb : dateBefore (⟨ref.year, 3, 1⟩ : GoDate) ref <;>
      simp only [Bool.false_eq_true, if_false, if_true]
    · simp only [dateBefore, decide_eq_false_iff_not, not_lt] at hb
      rw [if_neg (by omega)]
    · simp only [dateBefore, decide_eq_true_eq] at hb
      rw [if_pos hb, hnext]
  refine ⟨hmain, ?_, ?_⟩ <;> rw [hmain] <;> split <;> rfl

/-- Witness for C10 at reference 2023-06-15 (2023 is not a leap year):
the next occurrence of (2, 29) is 2024-03-01, not a February 29. -/
theorem C10_witness :
    nextOccurrence ⟨2023, 6, 15⟩ 2 29 =
      (if toDays ⟨2023, 3, 1⟩ < toDays ⟨2023, 6, 15⟩ then ⟨2023 + 1, 3, 1⟩
       else ⟨2023, 3, 1⟩) ∧
    (nextOccurrence ⟨2023, 6, 15⟩ 2 29).month = 3 ∧
      (nextOccurrence ⟨2023, 6, 15⟩ 2 29).day = 1 :=
  C10_nextOccurrence_feb29 ⟨2023, 6, 15⟩ (by decide) (by decide)

/-! ## Helper lemmas on the named-date line loop -/

theorem parseNamedDateLine_empty : parseNamedDateLine "" = .noMatch := rfl

theorem namedDateLoop_error_after (l2 l3 : List String) (b : String)
    (hbne : goTrimSpace b ≠ "")
    (hbm : parseNamedDateLine (goTrimSpace b) = .noMatch) :
    ∀ parsed : ParsedProfileInput,
      ∃ msg, namedDateLoop (l2 ++ b :: l3) parsed true = .error msg := by
  induction l2 with
  | nil =>
    intro parsed
    refine ⟨"invalid date line format", ?_⟩
    simp only [List.nil_append, namedDateLoop, hbm]
    rw [if_neg hbne]
    simp
  | cons x l2 ih =>
    intro parsed
    simp only [List.cons_append, namedDateLoop]
    by_cases hx : goTrimSpace x = ""
    · rw [if_pos hx]; exact ih parsed
    · rw [if_neg hx]
      cases hpx : parseNamedDateLine (goTrimSpace x) with
      | noMatch => exact ⟨"invalid date line format", rfl⟩
      | fail msg => exact ⟨msg, rfl⟩
      | ok mo dy yr =>
        cases yr with
        | none =>
          cases hb2 : parsed.hasBirthday <;> simp only [hb2, Bool.false_eq_true, if_false, if_true]
          · exact ih _
          · exact ⟨_, rfl⟩
        | some y =>
          cases hh : parsed.hasHireDate <;> simp only [hh, Bool.false_eq_true, if_false, if_true]
          · by_cases hinv : (goDate y mo dy).month ≠ mo ∨ (goDate y mo dy).day ≠ dy
            · rw [if_pos hinv]; exact ⟨_, rfl⟩
            · rw [if_neg hinv]; exact ih _
          · exact ⟨_, rfl⟩

theorem namedDateLoop_error_locked (l1 : List String) (a : String) (l2 l3 : List String)
    (b : String) (ham : parseNamedDateLine (goTrimSpace a) ≠ .noMatch)
    (hbne : goTrimSpace b ≠ "")
    (hbm : parseNamedDateLine (goTrimSpace b) = .noMatch) :
    ∀ (parsed : ParsedProfileInput) (used : Bool),
      ∃ msg, namedDateLoop (l1 ++ a :: l2 ++ b :: l3) parsed used = .error msg := by
  induction l1 with
  | nil =>
    intro parsed used
    simp only [List.nil_append, namedDateLoop]
    have hane : goTrimSpace a ≠ "" := by
      intro h
      rw [h] at ham
      exact ham parseNamedDateLine_empty
    rw [if_neg hane]
    cases hpa : parseNamedDateLine (goTrimSpace a) with
    | noMatch => exact absurd hpa ham
    | fail msg => exact ⟨msg, rfl⟩
    | ok mo dy yr =>
      cases yr with
      | none =>
        cases hb2 : parsed.hasBirthday <;>
          simp only [hb2, Bool.false_eq_true, if_false, if_true]
        · exact namedDateLoop_error_after l2 l3 b hbne hbm _
        · exact ⟨_, rfl⟩
      | some y =>
        cases hh : parsed.hasHireDate <;>
          simp only [hh, Bool.false_eq_true, if_false, if_true]
        · by_cases hinv : (goDate y mo dy).month ≠ mo ∨ (goDate y mo dy).day ≠ dy
          · rw [if_pos hinv]; exact ⟨_, rfl⟩
          · rw [if_neg hinv]; exact namedDateLoop_error_after l2 l3 b hbne hbm _
        · exact ⟨_, rfl⟩
  | cons x l1 ih =>
    intro parsed used
    simp only [List.cons_append, namedDateLoop]
    by_cases hx : goTrimSpace x = ""
    · rw [if_pos hx]; exact ih parsed used
    · rw [if_neg hx]
      cases hpx : parseNamedDateLine (goTrimSpace x) with
      | noMatch =>
        cases hu : used <;> simp only [Bool.false_eq_true, if_false, if_true]
        · exact ih parsed false
        · exact ⟨_, rfl⟩
      | fail msg => exact ⟨msg, rfl⟩
      | ok mo dy yr =>
        cases yr with
        | none =>
          cases hb2 : parsed.hasBirthday <;>
            simp only [hb2, Bool.false_eq_true, if_false, if_true]
          · exact ih _ true
          · exact ⟨_, rfl⟩
        | some y =>
          cases hh : parsed.hasHireDate <;>
            simp only [hh, Bool.false_eq_true, if_false, if_true]
          · by_cases hinv : (goDate y mo dy).month ≠ mo ∨ (goDate y mo dy).day ≠ dy
            · rw [if_pos hinv]; exact ⟨_, rfl⟩
            · rw [if_neg hinv]; exact ih _ true
          · exact ⟨_, rfl⟩

theorem namedDateLoop_all_noMatch (lines : List String)
    (h : ∀ l ∈ lines, parseNamedDateLine (goTrimSpace l) = .noMatch) :
    ∀ parsed : ParsedProfileInput, namedDateLoop lines parsed false = .ok (parsed, false) := by
  induction lines with
  | nil => intro parsed; rfl
  | cons x rest ih =>
    intro parsed
    simp only [namedDateLoop]
    by_cases hx : goTrimSpace x = ""
    · rw [if_pos hx]
      exact ih (fun l hl => h l (List.mem_cons_of_mem _ hl)) parsed
    · rw [if_neg hx, h x (List.mem_cons_self _ _)]
      simp only [Bool.false_eq_true, if_false]
      exact ih (fun l hl => h l (List.mem_cons_of_mem _ hl)) parsed

/-! ## Claim C2 -/

/-- Claim C2 (corrected): both grammars do validate the (day, month)
combination by projecting it onto the fixed reference year 2024 — but 2024
is a LEAP year, so while day 30 of February and day 31 of April are
rejected, the pair (day 29, month 2) with no year attached is accepted as
a birthday, not rejected.  The projection accepts exactly the days up to
the 2024 month length. -/
theorem C2_reference_year_2024 (d m : Int) (h1 : 1 ≤ m) (h2 : m ≤ 12)
    (h3 : 1 ≤ d) (h4 : d ≤ 31) :
    (validDayMonth d m = true ↔ d ≤ daysInMonth 2024 m) ∧
    isLeap 2024 = true ∧
    parseProfileInput "february 30" = .error "invalid calendar date" ∧
    parseProfileInput "april 31" = .error "invalid calendar date" ∧
    parseProfileInput "february 29" =
      .ok { hasBirthday := true, birthdayDay := 29, birthdayMon := 2 } ∧
    parseProfileInput "birthday: 30/02" = .error "invalid birthday date" ∧
    parseProfileInput "birthday: 29/02" =
      .ok { hasBirthday := true, birthdayDay := 29, birthdayMon := 2 } := by
  refine ⟨?_, by decide, rfl, rfl, rfl, rfl, rfl⟩
  unfold validDayMonth
  dsimp only
  by_cases hc : d ≤ daysInMonth 2024 m
  · rw [goDate_id 2024 m d h1 h2 h3 hc]
    simp [hc]
  · obtain ⟨he, hm11⟩ := goDate_carry 2024 m d h1 h2 (by omega) h4
    rw [he]
    have hne : (m + 1 : Int) ≠ m := by omega
    simp [hne, hc]

/-- Counterexample to C2 as stated: the pair (29, 2) with no year is not a
parse error — "february 29" parses to a birthday, because the reference
year 2024 used by `validDayMonth` is a leap year. -/
theorem C2_counterexample :
    parseProfileInput "february 29" =
      .ok { hasBirthday := true, birthdayDay := 29, birthdayMon := 2 } ∧
    validDayMonth 29 2 = true :=
  ⟨rfl, rfl⟩

/-- Witness for C2 at (d, m) = (29, 2). -/
theorem C2_witness :
    ((validDayMonth 29 2 = true ↔ (29 : Int) ≤ daysInMonth 2024 2) ∧
     isLeap 2024 = true ∧
     parseProfileInput "february 30" = .error "invalid calendar date" ∧
     parseProfileInput "april 31" = .error "invalid calendar date" ∧
     parseProfileInput "february 29" =
       .ok { hasBirthday := true, birthdayDay := 29, birthdayMon := 2 } ∧
     parseProfileInput "birthday: 30/02" = .error "invalid birthday date" ∧
     parseProfileInput "birthday: 29/02" =
       .ok { hasBirthday := true, birthdayDay := 29, birthdayMon := 2 }) :=
  C2_reference_year_2024 29 2 (by decide) (by decide) (by decide) (by decide)

/-! ## Claim C3 -/

/-- Claim C3 (corrected/amended): once a line has matched the named-date
grammar, any later non-blank line that fails to match makes the parse an
error; a failing line that appears before the first matching line is
silently skipped (the lock only applies from the first match on). -/
theorem C3_named_mode_locking (text : String) (l1 : List String) (a : String)
    (l2 l3 : List String) (b : String)
    (hsplit : goSplitNewline (goTrimSpace text) = l1 ++ a :: l2 ++ b :: l3)
    (ham : parseNamedDateLine (goTrimSpace a) ≠ .noMatch)
    (hbne : goTrimSpace b ≠ "")
    (hbm : parseNamedDateLine (goTrimSpace b) = .noMatch) :
    ∃ msg, parseProfileInput text = .error msg := by
  unfold parseProfileInput
  by_cases hclean : goTrimSpace text = ""
  · rw [if_pos hclean]; exact ⟨_, rfl⟩
  · rw [if_neg hclean]
    unfold parseNamedDateProfileInput
    rw [hsplit]
    obtain ⟨msg, hmsg⟩ := namedDateLoop_error_locked l1 a l2 l3 b ham hbne hbm {} false
    rw [hmsg]
    exact ⟨msg, rfl⟩

theorem C3_counterexample :
    parseProfileInput "hello\nmarch 25" =
      .ok { hasBirthday := true, birthdayDay := 25, birthdayMon := 3 } := rfl

theorem C3_witness : ∃ msg, parseProfileInput "march 25\nhello" = .error msg :=
  C3_named_mode_locking "march 25\nhello" [] "march 25" [] [] "hello" rfl
    (by decide) (by decide) rfl

/-! ## Claim C6 -/

/-- Claim C6 (corrected): nonempty text recognized by neither grammar
fails with the parse error "no birthday or hire date found"; the empty
string, however, fails earlier with the distinct error "empty message". -/
theorem C6_unrecognized_text (text : String)
    (hne : goTrimSpace text ≠ "")
    (hnamed : ∀ l ∈ goSplitNewline (goTrimSpace text),
      parseNamedDateLine (goTrimSpace l) = .noMatch)
    (hb1 : scanBirthday none (goTrimSpace text).data = none)
    (hb2 : onlyBirthdayMatch (goTrimSpace text).data = none)
    (hh1 : scanHire none (goTrimSpace text).data = none)
    (hh2 : onlyHireDateMatch (goTrimSpace text).data = none) :
    parseProfileInput text = .error "no birthday or hire date found" ∧
    parseProfileInput "" = .error "empty message" := by
  refine ⟨?_, rfl⟩
  unfold parseProfileInput
  rw [if_neg hne]
  unfold parseNamedDateProfileInput
  rw [namedDateLoop_all_noMatch _ hnamed {}]
  simp [parseLegacyProfileInput, hb1, hb2, hh1, hh2]

theorem C6_counterexample :
    parseProfileInput "" = .error "empty message" ∧
    ("empty message" : String) ≠ "no birthday or hire date found" :=
  ⟨rfl, by decide⟩

theorem C6_witness :
    parseProfileInput "what is this" = .error "no birthday or hire date found" ∧
    parseProfileInput "" = .error "empty message" :=
  C6_unrecognized_text "what is this" (by decide) (by decide) rfl rfl rfl rfl

/-! ## Claims C4, C5, C1, C9 (dispatch model and inbound merge) -/

theorem channelDue_spec (env : Env) (w : World) (now : Int) (c : Channel)
    (off : Int → Int) (htz : env.tzdb c.timezone = some off) :
    (channelDue env w now c = true ↔
      ((now + off now) / 3600) % 24 = c.postingHour ∧
      ((now + off now) / 60) % 60 = c.postingMinute ∧
      (c.id, (now + off now) / 86400) ∉ w.dispatchLog) := by
  unfold channelDue
  rw [htz]
  simp only [decide_eq_true_eq, Bool.and_eq_true]
  exact and_assoc

/-- Claim C4: `listDueChannels(nowInstant)` returns a channel if and only
if, after converting the instant into the channel's zone, the local hour
and minute exactly equal the configured posting hour and minute and no
dispatch-log row exists for (channel, local calendar date); in particular
a channel that already has a row for its current local date is never
returned. -/
theorem C4_due_iff (env : Env) (w : World) (now : Int) (c : Channel)
    (off : Int → Int) (htz : env.tzdb c.timezone = some off) :
    (c ∈ listDueChannels env w now ↔
      c ∈ w.channels ∧
      ((now + off now) / 3600) % 24 = c.postingHour ∧
      ((now + off now) / 60) % 60 = c.postingMinute ∧
      (c.id, (now + off now) / 86400) ∉ w.dispatchLog) ∧
    ((c.id, (now + off now) / 86400) ∈ w.dispatchLog →
      c ∉ listDueChannels env w now) := by
  have hd := channelDue_spec env w now c off htz
  constructor
  · rw [listDueChannels, List.mem_filter, hd]
  · intro hlog hmem
    rw [listDueChannels, List.mem_filter, hd] at hmem
    exact hmem.2.2.2 hlog

theorem postMessage_world (env : Env) (w : World) (a b t : String) (av : List String) :
    ∀ w', postMessage env w a b t av = .ok w' → w'.dispatchLog = w.dispatchLog := by
  intro w' h
  unfold postMessage at h
  split at h
  · cases h
  · cases h; rfl

theorem runBirthdaysStep_world (env : Env) (w : World) (c : Channel) (month day : Int) :
    ∀ r, runBirthdaysStep env w c month day = .ok r →
      r.2.2.dispatchLog = w.dispatchLog := by
  intro r h
  unfold runBirthdaysStep at h
  split at h
  · cases h; rfl
  · split at h
    · cases h
    · split at h
      · dsimp only at h
        split at h
        · cases h
        · rename_i birthdays hlen w1 hpost
          cases h
          exact postMessage_world env w _ _ _ _ w1 hpost
      · cases h; rfl

theorem runAnniversariesStep_world (env : Env) (w : World) (c : Channel)
    (month day year : Int) :
    ∀ r, runAnniversariesStep env w c month day year = .ok r →
      r.2.2.dispatchLog = w.dispatchLog := by
  intro r h
  unfold runAnniversariesStep at h
  split at h
  · cases h; rfl
  · split at h
    · cases h
    · split at h
      · dsimp only at h
        split at h
        · cases h
        · rename_i anns hlen w1 hpost
          cases h
          exact postMessage_world env w _ _ _ _ w1 hpost
      · cases h; rfl

theorem markChannelDispatched_mem (log : List (String × Int)) (cid : String) (d : Int) :
    (cid, d) ∈ markChannelDispatched log cid d := by
  unfold markChannelDispatched
  split
  · assumption
  · simp

theorem markChannelDispatched_idem (log : List (String × Int)) (cid : String) (d : Int)
    (h : (cid, d) ∈ log) : markChannelDispatched log cid d = log := by
  unfold markChannelDispatched
  rw [if_pos h]

/-- Claim C5: a single channel dispatch pass writes the dispatch-log row
for (channel, today's local date) exactly when the pass completes without
error — it is written even when zero messages were posted, and any
timezone-resolution, repository, or outbound-post error (including a
failing mark itself) leaves the dispatch log unchanged. -/
theorem C5_dispatch_log_iff (env : Env) (w : World) (c : Channel) (now : Int) :
    (∀ e, (runChannelCelebrationWithResult env w c now).1 = .error e →
      (runChannelCelebrationWithResult env w c now).2.dispatchLog = w.dispatchLog) ∧
    (∀ o, (runChannelCelebrationWithResult env w c now).1 = .ok o →
      ∃ off, env.tzdb c.timezone = some off ∧
        (runChannelCelebrationWithResult env w c now).2.dispatchLog =
          markChannelDispatched w.dispatchLog c.id ((now + off now) / 86400) ∧
        (c.id, (now + off now) / 86400) ∈
          (runChannelCelebrationWithResult env w c now).2.dispatchLog) := by
  unfold runChannelCelebrationWithResult
  split
  · exact ⟨fun e he => rfl, fun o ho => by simp at ho⟩
  · rename_i off htz
    dsimp only
    split
    · exact ⟨fun e he => rfl, fun o ho => by simp at ho⟩
    · rename_i bc bp w1 hbs
      have hw1 : w1.dispatchLog = w.dispatchLog :=
        runBirthdaysStep_world env w c _ _ _ hbs
      split
      · refine ⟨fun e he => ?_, fun o ho => by simp at ho⟩
        dsimp only
        exact hw1
      · rename_i ac ap w2 has
        have hw2 : w2.dispatchLog = w1.dispatchLog :=
          runAnniversariesStep_world env w1 c _ _ _ _ has
        split
        · refine ⟨fun e he => ?_, fun o ho => by simp at ho⟩
          dsimp only
          rw [hw2, hw1]
        · refine ⟨fun e he => by simp at he, fun o ho => ?_⟩
          refine ⟨off, htz, ?_, ?_⟩
          · dsimp only
            rw [hw2, hw1]
          · dsimp only
            rw [hw2, hw1]
            exact markChannelDispatched_mem w.dispatchLog c.id ((now + off now) / 86400)

/-- Claim C1 (corrected/amended): with a dispatch-log row present for the
channel's current local date, the scheduled path never selects the channel
again (excluded upstream by `listDueChannels`), and a repeated per-channel
pass writes no second log row — the mark is an idempotent
insert-if-absent.  The manual/bulk path `RunWorkspaceNow` MAY however post
messages again for such a channel, since the per-channel pass never
consults the dispatch log before posting. -/
theorem C1_second_run (env : Env) (w : World) (c : Channel) (now : Int)
    (off : Int → Int) (htz : env.tzdb c.timezone = some off)
    (hlog : (c.id, (now + off now) / 86400) ∈ w.dispatchLog) :
    c ∉ listDueChannels env w now ∧
    (runChannelCelebrationWithResult env w c now).2.dispatchLog = w.dispatchLog := by
  constructor
  · intro hmem
    rw [listDueChannels, List.mem_filter, channelDue_spec env w now c off htz] at hmem
    exact hmem.2.2.2 hlog
  · unfold runChannelCelebrationWithResult
    split
    · rfl
    · rename_i off2 htz2
      have hoff : off2 = off := by
        have := htz2.symm.trans htz
        exact Option.some.inj this
      subst hoff
      dsimp only
      split
      · rfl
      · rename_i bc bp w1 hbs
        have hw1 : w1.dispatchLog = w.dispatchLog :=
          runBirthdaysStep_world env w c _ _ _ hbs
        split
        · exact hw1
        · rename_i ac ap w2 has
          have hw2 : w2.dispatchLog = w1.dispatchLog :=
            runAnniversariesStep_world env w1 c _ _ _ _ has
          split
          · dsimp only
            rw [hw2, hw1]
          · dsimp only
            rw [hw2, hw1, markChannelDispatched_idem _ _ _ hlog]

/-- Claim C9: for an existing person and a parsed input containing only a
hire date, the upsert built by the inbound merge keeps the stored handle
(when the directory profile supplies none and the stored handle is a
nonblank trimmed string), leaves all three birthday fields exactly as
stored, carries over the stored opt-in flag and (nonblank) reminders mode,
and sets the hire date to the parsed value. -/
theorem C9_hire_only_merge (p : Person) (parsed : ParsedProfileInput)
    (profile : SlackUserProfile) (ws uid : String)
    (hnb : parsed.hasBirthday = false) (hhd : parsed.hasHireDate = true)
    (hprof : goTrimSpace profile.slackHandle = "")
    (hsaved : goTrimSpace p.slackHandle = p.slackHandle)
    (hne : p.slackHandle ≠ "")
    (hmode : goTrimSpace p.remindersMode ≠ "") :
    ∃ u, buildPersonUpsert (.found p) ws uid parsed profile = .ok u ∧
      u.slackHandle = p.slackHandle ∧
      u.birthdayDay = p.birthdayDay ∧
      u.birthdayMonth = p.birthdayMonth ∧
      u.birthdayYear = p.birthdayYear ∧
      u.publicCelebrationOptIn = p.publicCelebrationOptIn ∧
      u.remindersMode = p.remindersMode ∧
      u.hireDate = some parsed.hireDate := by
  have hfall : fallbackString [profile.slackHandle, p.slackHandle, uid] = p.slackHandle := by
    unfold fallbackString
    rw [hprof]
    rw [if_neg (by simp)]
    unfold fallbackString
    rw [hsaved, if_pos hne]
  unfold buildPersonUpsert
  dsimp only
  simp only [hnb, hhd, Bool.false_eq_true, if_false, if_true]
  rw [if_pos hmode]
  exact ⟨_, rfl, hfall, rfl, rfl, rfl, rfl, rfl, rfl⟩

/-- Witness for C9: handle "alpha_saved" is retained and the birthday
fields survive a hire-date-only update. -/
theorem C9_witness :
    ∃ u, buildPersonUpsert (.found pSaved) "W" "U1" parsedHireOnly {} = .ok u ∧
      u.slackHandle = pSaved.slackHandle ∧
      u.birthdayDay = pSaved.birthdayDay ∧
      u.birthdayMonth = pSaved.birthdayMonth ∧
      u.birthdayYear = pSaved.birthdayYear ∧
      u.publicCelebrationOptIn = pSaved.publicCelebrationOptIn ∧
      u.remindersMode = pSaved.remindersMode ∧
      u.hireDate = some parsedHireOnly.hireDate :=
  C9_hire_only_merge pSaved parsedHireOnly {} "W" "U1" rfl rfl rfl (by decide)
    (by decide) (by decide)

/-- Counterexample to C1 as stated: running the manual dispatch twice in
immediate succession for the same channel on the same local date posts
TWICE (two records in `posts`), even though only one dispatch-log row is
ever written. -/
theorem C1_counterexample :
    (RunWorkspaceNow envFix wFix "W" 0).2.posts.length = 1 ∧
    (RunWorkspaceNow envFix (RunWorkspaceNow envFix wFix "W" 0).2 "W" 0).2.posts.length = 2 ∧
    (RunWorkspaceNow envFix (RunWorkspaceNow envFix wFix "W" 0).2 "W" 0).2.dispatchLog =
      [("ch1", 0)] :=
  ⟨rfl, rfl, rfl⟩

/-- Witness for C1 on the fixture world that already has the log row. -/
theorem C1_witness :
    chFix ∉ listDueChannels envFix wFixLogged 0 ∧
    (runChannelCelebrationWithResult envFix wFixLogged chFix 0).2.dispatchLog =
      wFixLogged.dispatchLog :=
  C1_second_run envFix wFixLogged chFix 0 offFix rfl (by decide)

/-- Witness for C4 on the logged fixture world at instant 0. -/
theorem C4_witness :
    ((chFix ∈ listDueChannels envFix wFixLogged 0 ↔
      chFix ∈ wFixLogged.channels ∧
      ((0 + offFix 0) / 3600) % 24 = chFix.postingHour ∧
      ((0 + offFix 0) / 60) % 60 = chFix.postingMinute ∧
      (chFix.id, (0 + offFix 0) / 86400) ∉ wFixLogged.dispatchLog) ∧
     ((chFix.id, (0 + offFix 0) / 86400) ∈ wFixLogged.dispatchLog →
      chFix ∉ listDueChannels envFix wFixLogged 0)) :=
  C4_due_iff envFix wFixLogged 0 chFix offFix rfl

/-- Witness for C5: a pass over a world with no matching people still
writes the dispatch-log row (zero messages posted). -/
theorem C5_witness :
    ∃ off, envFix.tzdb chFix.timezone = some off ∧
      (runChannelCelebrationWithResult envFix wFixEmpty chFix 0).2.dispatchLog =
        markChannelDispatched wFixEmpty.dispatchLog chFix.id ((0 + off 0) / 86400) ∧
      (chFix.id, (0 + off 0) / 86400) ∈
        (runChannelCelebrationWithResult envFix wFixEmpty chFix 0).2.dispatchLog :=
  (C5_dispatch_log_iff envFix wFixEmpty chFix 0).2 {} rfl

end SlackCheers

